import Mathlib

/-!
Shallow embedding of `sysmlv2_validator.py` (SysMLv2 textual notation
validator).  Python strings are modelled as `List Char`; the regular
expressions used by the validator are small, backtracking-free patterns and
are embedded as explicit deterministic matchers with identical semantics on
the character classes involved (ASCII approximation of `\w`, `\s`).
-/

set_option maxRecDepth 4000
set_option synthInstance.maxHeartbeats 1000000

namespace SysMLV2

/-- Python strings modelled as lists of characters. -/
abbrev PyStr := List Char

/-- Character data of a Lean string literal (used to write Python string
literals). -/
def pys (s : String) : PyStr := s.data

/-- ASCII approximation of the regex class `\w`. -/
def isWordChar (c : Char) : Bool := c.isAlpha || c.isDigit || c == '_'

/-- ASCII approximation of the regex class `\s` restricted to characters that
can occur inside a line (line terminators are removed by `splitlines`). -/
def isSpaceChar (c : Char) : Bool := c == ' ' || c == '\t'

/-- Python `str.lstrip()`. -/
def ltrim (s : PyStr) : PyStr := s.dropWhile isSpaceChar

/-- Python `str.rstrip()`. -/
def rtrim (s : PyStr) : PyStr := (s.reverse.dropWhile isSpaceChar).reverse

/-- Python `str.strip()`. -/
def pyStrip (s : PyStr) : PyStr := rtrim (ltrim s)

/-- Python `str.startswith` for our list model. -/
def startsWithL (p s : PyStr) : Bool := p.isPrefixOf s

/-- Python `c in s` for a single character. -/
def containsChar (c : Char) (s : PyStr) : Bool := s.any (· == c)

/-- Python `str.isalpha()` (ASCII approximation). -/
def pyIsAlpha (s : PyStr) : Bool := !s.isEmpty && s.all (·.isAlpha)

/-- Line-boundary characters recognised by Python `str.splitlines`. -/
def isLineBreak (c : Char) : Bool :=
  c == '\n' || c == '\r' || c == '\x0b' || c == '\x0c' ||
  c == '\x1c' || c == '\x1d' || c == '\x1e' || c == '\x85' ||
  c == '\u2028' || c == '\u2029'

/-- Worker for `splitlines`; `cur` holds the current line reversed. -/
def splitlinesGo : PyStr → PyStr → List PyStr
  | cur, [] => if cur.isEmpty then [] else [cur.reverse]
  | cur, '\r' :: '\n' :: rest => cur.reverse :: splitlinesGo [] rest
  | cur, c :: rest =>
    if isLineBreak c then cur.reverse :: splitlinesGo [] rest
    else splitlinesGo (c :: cur) rest

/-- Python `str.splitlines()`. -/
def splitlines (s : PyStr) : List PyStr := splitlinesGo [] s

/-- First index (0-based) at which `pat` occurs as an infix of `s`
(Python `str.index`), if any. -/
def firstInfixIdx (pat : PyStr) : PyStr → Option Nat
  | [] => if pat.isEmpty then some 0 else none
  | c :: cs =>
    if pat.isPrefixOf (c :: cs) then some 0
    else (firstInfixIdx pat cs).map (· + 1)

/-- Mirror of the Python dataclass `ValidationError` (a diagnostic record). -/
structure ValidationError where
  line : Nat
  col : Nat
  message : PyStr
  severity : PyStr
deriving DecidableEq, Repr

/-- Mirror of the Python dataclass `Symbol`. -/
structure Symbol where
  name : PyStr
  kind : PyStr
  line : Nat
  parent : Option PyStr := none
  type_ref : Option PyStr := none
  children : List PyStr := []
deriving DecidableEq, Repr

/-- The per-symbol snapshot `{kind, line, type_ref}` returned by
`validate_sysmlv2`. -/
structure SymbolInfo where
  kind : PyStr
  line : Nat
  type_ref : Option PyStr
deriving DecidableEq, Repr

/-- The result dict returned by `validate_sysmlv2`. -/
structure ValidationResult where
  valid : Bool
  error_count : Nat
  warning_count : Nat
  diagnostics : List ValidationError
  symbols : List (PyStr × SymbolInfo)
deriving DecidableEq, Repr

def sevError : PyStr := pys "error"

def sevWarning : PyStr := pys "warning"

/-- One entry of the open-delimiter stack: `(char, line, col)`. -/
structure OpenD where
  ch : Char
  line : Nat
  col : Nat
deriving DecidableEq, Repr

/-- The mutable scanning state of `_check_balanced`; `stack` keeps the most
recent opener at the head (Python appends/pops at the list's right end). -/
structure BalState where
  stack : List OpenD
  errors : List ValidationError
  inString : Bool
  inLineComment : Bool
  inBlockComment : Bool
  prevChar : Option Char
deriving DecidableEq, Repr

def balInit : BalState := ⟨[], [], false, false, false, none⟩

/-- The closing delimiter expected for an opener (the Python `pairs` dict). -/
def pairClose (c : Char) : Char :=
  if c == '{' then '}' else if c == '(' then ')' else ']'

def isOpenDelim (c : Char) : Bool := c == '{' || c == '(' || c == '['

def isCloseDelim (c : Char) : Bool := c == '}' || c == ')' || c == ']'

/-- Message `f"Unmatched closing '{ch}'"`. -/
def msgUnmatched (ch : Char) : PyStr :=
  pys "Unmatched closing '" ++ [ch] ++ pys "'"

/-- Decimal digits of a natural number, as Python `str(n)` would print it. -/
def natStr (n : Nat) : PyStr := (toString n).data

/-- Message `f"Mismatched delimiter: expected '{expected}' (opened at line
{open_line}:{open_col}) but found '{ch}'"`. -/
def msgMismatched (expected : Char) (ol oc : Nat) (ch : Char) : PyStr :=
  pys "Mismatched delimiter: expected '" ++ [expected] ++
  pys "' (opened at line " ++ natStr ol ++ pys ":" ++ natStr oc ++
  pys ") but found '" ++ [ch] ++ pys "'"

/-- Message `f"Unclosed '{open_ch}' — expected '{expected}'"`. -/
def msgUnclosed (ch expected : Char) : PyStr :=
  pys "Unclosed '" ++ [ch] ++ pys "' — expected '" ++ [expected] ++ pys "'"

/-- The Python local `in_line_comment` after the comment-tracking `if`s. -/
def lineCommentAfter (s : BalState) (ch : Char) : Bool :=
  if !s.inString && !s.inBlockComment && s.prevChar == some '/' && ch == '/' then true
  else s.inLineComment

/-- The Python local `in_block_comment` after the comment-tracking `if`s
(note that it reads the already-updated `in_line_comment`). -/
def blockCommentAfter (s : BalState) (ch : Char) : Bool :=
  if !s.inString && !lineCommentAfter s ch && s.prevChar == some '/' && ch == '*' then true
  else s.inBlockComment

/-- The Python local `in_string` after the quote toggle. -/
def stringAfter (s : BalState) (ch : Char) : Bool :=
  if ch == '"' && s.prevChar != some '\\' then !s.inString else s.inString

/-- One step of the `_check_balanced` character loop, at 1-based position
`(lineno, col)`, faithful to the Python control flow (`continue` branches
first, then the delimiter logic). -/
def processChar (lineno col : Nat) (ch : Char) (s : BalState) : BalState :=
  if blockCommentAfter s ch && s.prevChar == some '*' && ch == '/' then
    { s with inLineComment := lineCommentAfter s ch, inBlockComment := false,
             prevChar := some ch }
  else if lineCommentAfter s ch || blockCommentAfter s ch then
    { s with inLineComment := lineCommentAfter s ch,
             inBlockComment := blockCommentAfter s ch, prevChar := some ch }
  else if stringAfter s ch then
    { s with inString := stringAfter s ch, inLineComment := lineCommentAfter s ch,
             inBlockComment := blockCommentAfter s ch, prevChar := some ch }
  else if isOpenDelim ch then
    { s with inString := stringAfter s ch, inLineComment := lineCommentAfter s ch,
             inBlockComment := blockCommentAfter s ch,
             stack := ⟨ch, lineno, col⟩ :: s.stack, prevChar := some ch }
  else if isCloseDelim ch then
    match s.stack with
    | [] =>
      { s with inString := stringAfter s ch, inLineComment := lineCommentAfter s ch,
               inBlockComment := blockCommentAfter s ch,
               errors := s.errors ++ [⟨lineno, col, msgUnmatched ch, sevError⟩],
               prevChar := some ch }
    | top :: rest =>
      if ch != pairClose top.ch then
        { s with inString := stringAfter s ch, inLineComment := lineCommentAfter s ch,
                 inBlockComment := blockCommentAfter s ch, stack := rest,
                 errors := s.errors ++
                   [⟨lineno, col,
                     msgMismatched (pairClose top.ch) top.line top.col ch, sevError⟩],
                 prevChar := some ch }
      else
        { s with inString := stringAfter s ch, inLineComment := lineCommentAfter s ch,
                 inBlockComment := blockCommentAfter s ch, stack := rest,
                 prevChar := some ch }
  else
    { s with inString := stringAfter s ch, inLineComment := lineCommentAfter s ch,
             inBlockComment := blockCommentAfter s ch, prevChar := some ch }

/-- Run `processChar` over the characters of one line, columns numbered from
`col`. -/
def processChars (lineno : Nat) : Nat → PyStr → BalState → BalState
  | _, [], s => s
  | col, c :: cs, s => processChars lineno (col + 1) cs (processChar lineno col c s)

/-- Run the balance scan over the lines (1-based numbering from `n`); the
line-comment flag is reset at the start of every line, all other state
persists across lines. -/
def processLines : Nat → List PyStr → BalState → BalState
  | _, [], s => s
  | n, l :: ls, s => processLines (n + 1) ls (processChars n 1 l { s with inLineComment := false })

/-- Pass 1 `_check_balanced`: scan errors followed by one Unclosed error per
entry left on the stack (oldest opener first, as Python iterates the list). -/
def checkBalanced (lines : List PyStr) : List ValidationError :=
  let f := processLines 1 lines balInit
  f.errors ++ f.stack.reverse.map
    (fun e => ⟨e.line, e.col, msgUnclosed e.ch (pairClose e.ch), sevError⟩)

/-- Consume the literal `lit` at the front of `s`, returning the remainder. -/
def dropLit : PyStr → PyStr → Option PyStr
  | [], s => some s
  | _ :: _, [] => none
  | l :: ls, c :: cs => if c == l then dropLit ls cs else none

/-- Ordered regex alternation over literal words: the first literal that is a
prefix of `s` wins (the alternatives used by the validator are prefix-free, so
this matches Python's ordered-alternation semantics). -/
def firstLit (lits : List PyStr) (s : PyStr) : Option (PyStr × PyStr) :=
  match lits with
  | [] => none
  | l :: ls =>
    match dropLit l s with
    | some r => some (l, r)
    | none => firstLit ls s

/-- Regex `\s+` (greedy; the following pattern element never starts with a
space, so greedy matching is exact). -/
def pSpaces1 (s : PyStr) : Option PyStr :=
  match s with
  | c :: cs => if isSpaceChar c then some (cs.dropWhile isSpaceChar) else none
  | [] => none

/-- Regex `\w[tail]*` for a tail character class, returning the identifier and
the remainder. -/
def pIdent (tailP : Char → Bool) (s : PyStr) : Option (PyStr × PyStr) :=
  match s with
  | c :: cs =>
    if isWordChar c then some (c :: cs.takeWhile tailP, cs.dropWhile tailP)
    else none
  | [] => none

/-- Tail class `[\w']`. -/
def tailIdent (c : Char) : Bool := isWordChar c || c == '\''

/-- Tail class `[\w':]`. -/
def tailIdentC (c : Char) : Bool := isWordChar c || c == '\'' || c == ':'

/-- The alternation in `def_pattern` and in `usage_pattern`/`type_ref_pattern`,
in source order. -/
def defKWs : List PyStr :=
  [pys "part", pys "port", pys "requirement", pys "constraint", pys "action",
   pys "state", pys "enum", pys "item", pys "interface", pys "connection",
   pys "attribute"]

def usageKWs : List PyStr :=
  [pys "part", pys "port", pys "attribute", pys "requirement", pys "constraint",
   pys "action", pys "state", pys "item"]

def typeRefKWs : List PyStr :=
  [pys "part", pys "port", pys "attribute", pys "item"]

/-- Matcher for `def_pattern`
`(part|...|attribute)\s+def\s+(\w[\w']*)`; returns `((keyword, name), length)`
of the match starting at the head of `s`, if any. -/
def defMatcher (s : PyStr) : Option ((PyStr × PyStr) × Nat) := do
  let (kw, r1) ← firstLit defKWs s
  let r2 ← pSpaces1 r1
  let r3 ← dropLit (pys "def") r2
  let r4 ← pSpaces1 r3
  let (nm, r5) ← pIdent tailIdent r4
  some ((kw, nm), s.length - r5.length)

/-- Matcher for `pkg_pattern` `package\s+(\w[\w':]*)`. -/
def pkgMatcher (s : PyStr) : Option (PyStr × Nat) := do
  let r1 ← dropLit (pys "package") s
  let r2 ← pSpaces1 r1
  let (nm, r3) ← pIdent tailIdentC r2
  some (nm, s.length - r3.length)

/-- Matcher for `usage_pattern`
`(part|...|item)\s+(\w[\w']*)\s*:\s*(\w[\w':]*)`. -/
def usageMatcher (s : PyStr) : Option ((PyStr × PyStr × PyStr) × Nat) := do
  let (kw, r1) ← firstLit usageKWs s
  let r2 ← pSpaces1 r1
  let (nm, r3) ← pIdent tailIdent r2
  let r4 := r3.dropWhile isSpaceChar
  let r5 ← dropLit (pys ":") r4
  let r6 := r5.dropWhile isSpaceChar
  let (tr, r7) ← pIdent tailIdentC r6
  some ((kw, nm, tr), s.length - r7.length)

/-- Matcher for `type_ref_pattern`
`(?:part|port|attribute|item)\s+\w[\w']*\s*:\s*(\w[\w']*)`. -/
def typeRefMatcher (s : PyStr) : Option (PyStr × Nat) := do
  let (_, r1) ← firstLit typeRefKWs s
  let r2 ← pSpaces1 r1
  let (_, r3) ← pIdent tailIdent r2
  let r4 := r3.dropWhile isSpaceChar
  let r5 ← dropLit (pys ":") r4
  let r6 := r5.dropWhile isSpaceChar
  let (ref, r7) ← pIdent tailIdent r6
  some (ref, s.length - r7.length)

/-- Matcher for `specialization_pattern` `:>\s*(\w[\w']*)`. -/
def specMatcher (s : PyStr) : Option (PyStr × Nat) := do
  let r1 ← dropLit (pys ":>") s
  let r2 := r1.dropWhile isSpaceChar
  let (ref, r3) ← pIdent tailIdent r2
  some (ref, s.length - r3.length)

/-- Matcher for `mult_pattern` `\[([^\]]*)\]`. -/
def multMatcher (s : PyStr) : Option (PyStr × Nat) :=
  match s with
  | '[' :: rest =>
    let content := rest.takeWhile (· != ']')
    match rest.dropWhile (· != ']') with
    | ']' :: r2 => some (content, s.length - r2.length)
    | _ => none
  | _ => none

/-- Matcher for `constraint_pattern` `(require|assume|assert)\s+constraint\b`;
the value is `(keyword, match length)` so that `m.end()` is available. -/
def constraintMatcher (s : PyStr) : Option ((PyStr × Nat) × Nat) := do
  let (kw, r1) ← firstLit [pys "require", pys "assume", pys "assert"] s
  let r2 ← pSpaces1 r1
  let r3 ← dropLit (pys "constraint") r2
  match r3 with
  | c :: _ =>
    if isWordChar c then none
    else some ((kw, s.length - r3.length), s.length - r3.length)
  | [] => some ((kw, s.length), s.length)

/-- Fuel-driven worker for `findIter`; every step consumes at least one
character, so fuel equal to the string length is always enough. -/
def findIterF (m : PyStr → Option (β × Nat)) : Nat → Nat → PyStr → List (Nat × β)
  | 0, _, _ => []
  | _ + 1, _, [] => []
  | fuel + 1, i, c :: cs =>
    match m (c :: cs) with
    | some (b, len) => (i, b) :: findIterF m fuel (i + len) (cs.drop (len - 1))
    | none => findIterF m fuel (i + 1) cs

/-- Python `re.finditer`: attempt the matcher at every position from left to
right, resuming after the end of each (nonempty) match; yields the 0-based
start index and the matcher's value. -/
def findIter (m : PyStr → Option (β × Nat)) (i : Nat) (s : PyStr) : List (Nat × β) :=
  findIterF m s.length i s

/-- Python `re.search`: the leftmost match, if any. -/
def reSearch (m : PyStr → Option (β × Nat)) (s : PyStr) : Option (Nat × β) :=
  (findIter m 0 s).head?

/-- Line-start comment test shared by passes 2-5:
`stripped.startswith("//") or stripped.startswith("/*")`. -/
def commentStart (line : PyStr) : Bool :=
  startsWithL (pys "//") (ltrim line) || startsWithL (pys "/*") (ltrim line)

/-- Run a per-line diagnostic function over all lines, numbering from `n`. -/
def mapLines (f : Nat → PyStr → List ValidationError) : Nat → List PyStr → List ValidationError
  | _, [] => []
  | n, l :: ls => f n l ++ mapLines f (n + 1) ls

/-- The `v1_to_v2` table of `_check_keywords`, in source (dict insertion)
order. -/
def v1ToV2 : List (PyStr × PyStr) :=
  [(pys "block", pys "part def"),
   (pys "value type", pys "attribute def"),
   (pys "flowPort", pys "port"),
   (pys "SysML::", pys "SysML v2 uses package imports, not SysML:: prefix")]

/-- Message of a legacy-keyword warning. -/
def msgLegacy (kw sugg : PyStr) : PyStr :=
  pys "'" ++ kw ++ pys "' is SysML v1 syntax. In SysML v2, use '" ++ sugg ++
  pys "' instead."

/-- One line of pass 2 `_check_keywords`. -/
def keywordsLine (lineno : Nat) (line : PyStr) : List ValidationError :=
  if commentStart line then []
  else
    v1ToV2.filterMap fun p =>
      (firstInfixIdx p.1 line).map fun idx =>
        ⟨lineno, idx + 1, msgLegacy p.1 p.2, sevWarning⟩

/-- Pass 2 `_check_keywords`. -/
def checkKeywords (lines : List PyStr) : List ValidationError :=
  mapLines keywordsLine 1 lines

/-- Python dict assignment `d[k] = v`: replace in place if the key exists,
otherwise append (insertion order preserved). -/
def dictInsert (k : PyStr) (v : Symbol) : List (PyStr × Symbol) → List (PyStr × Symbol)
  | [] => [(k, v)]
  | (k', v') :: rest =>
    if k' == k then (k, v) :: rest else (k', v') :: dictInsert k v rest

/-- Association lookup (Python `k in d` / `d[k]`). -/
def dictLookup (k : PyStr) : List (PyStr × Symbol) → Option Symbol
  | [] => none
  | (k', v') :: rest => if k' == k then some v' else dictLookup k rest

/-- The symbol-table matches contributed by one line of `_collect_symbols`, in
scan order: definition matches, then package matches, then usage matches. -/
def lineSymbolMatches (lineno : Nat) (line : PyStr) : List (PyStr × Symbol) :=
  if commentStart line then []
  else
    ((findIter defMatcher 0 line).map fun m =>
      (m.2.2, ⟨m.2.2, m.2.1 ++ pys "_def", lineno, none, none, []⟩)) ++
    ((findIter pkgMatcher 0 line).map fun m =>
      (m.2, ⟨m.2, pys "package", lineno, none, none, []⟩)) ++
    ((findIter usageMatcher 0 line).map fun m =>
      (m.2.2.1, ⟨m.2.2.1, m.2.1, lineno, none, some m.2.2.2, []⟩))

/-- All symbol-table matches of `_collect_symbols` in scan order. -/
def symbolMatches : Nat → List PyStr → List (PyStr × Symbol)
  | _, [] => []
  | n, l :: ls => lineSymbolMatches n l ++ symbolMatches (n + 1) ls

/-- Pass 3 `_collect_symbols`: fold the matches into the symbol dict. -/
def collectSymbols (lines : List PyStr) : List (PyStr × Symbol) :=
  (symbolMatches 1 lines).foldl (fun d m => dictInsert m.1 m.2 d) []

/-- The `builtins` set of `_check_type_references`. -/
def builtins : List PyStr :=
  [pys "Real", pys "Integer", pys "Boolean", pys "String", pys "Natural",
   pys "Positive", pys "ScalarValues", pys "NumericalValue",
   pys "MassValue", pys "LengthValue", pys "TimeValue", pys "ForceValue",
   pys "VoltageValue", pys "CurrentValue", pys "PowerValue",
   pys "TemperatureValue", pys "PressureValue", pys "FrequencyValue",
   pys "SpeedValue", pys "AccelerationValue", pys "AngularVelocityValue",
   pys "TorqueValue", pys "EnergyValue"]

/-- Message of an unresolved type-reference warning. -/
def msgUnresolvedType (ref : PyStr) : PyStr :=
  pys "Unresolved type reference '" ++ ref ++ pys "'. Define it with '" ++
  ref ++ pys "' def or add an import."

/-- Message of an unresolved specialization-target warning. -/
def msgUnresolvedSpec (ref : PyStr) : PyStr :=
  pys "Unresolved specialization target '" ++ ref ++ pys "'."

/-- Whether a name resolves: `ref in self.symbols or ref in builtins`. -/
def resolvable (symbols : List (PyStr × Symbol)) (ref : PyStr) : Bool :=
  (dictLookup ref symbols).isSome || builtins.contains ref

/-- One line of pass 4 `_check_type_references`: typed-usage references then
specialization targets; the reported column is the first occurrence of the
referenced name anywhere in the line (`line.index(ref) + 1`). -/
def typeRefsLine (symbols : List (PyStr × Symbol)) (lineno : Nat) (line : PyStr) :
    List ValidationError :=
  if commentStart line || startsWithL (pys "import") (ltrim line) then []
  else
    ((findIter typeRefMatcher 0 line).filterMap fun m =>
      if resolvable symbols m.2 then none
      else some ⟨lineno, (firstInfixIdx m.2 line).getD 0 + 1,
                 msgUnresolvedType m.2, sevWarning⟩) ++
    ((findIter specMatcher 0 line).filterMap fun m =>
      if resolvable symbols m.2 then none
      else some ⟨lineno, (firstInfixIdx m.2 line).getD 0 + 1,
                 msgUnresolvedSpec m.2, sevWarning⟩)

/-- Pass 4 `_check_type_references`. -/
def checkTypeReferences (symbols : List (PyStr × Symbol)) (lines : List PyStr) :
    List ValidationError :=
  mapLines (typeRefsLine symbols) 1 lines

/-- The anchored `valid_mult` regex `^(\d+|\*)(\.\.(\d+|\*))?$`. -/
def validMultHalf (s : PyStr) : Option PyStr :=
  match s with
  | '*' :: rest => some rest
  | c :: cs =>
    if c.isDigit then some (cs.dropWhile (·.isDigit)) else none
  | [] => none

def validMult (s : PyStr) : Bool :=
  match validMultHalf s with
  | none => false
  | some rest =>
    match rest with
    | [] => true
    | '.' :: '.' :: r2 =>
      match validMultHalf r2 with
      | some [] => true
      | _ => false
    | _ => false

/-- Message of an invalid-multiplicity error. -/
def msgMult (content : PyStr) : PyStr :=
  pys "Invalid multiplicity '[" ++ content ++
  pys "]'. Use forms like [1], [*], [0..1], [1..*]."

/-- One line of pass 5 `_check_multiplicity` (Python's local
`content = m.group(1).strip()` is written out as `pyStrip m.2`). -/
def multiplicityLine (lineno : Nat) (line : PyStr) : List ValidationError :=
  if commentStart line then []
  else
    (findIter multMatcher 0 line).filterMap fun m =>
      if pyIsAlpha (pyStrip m.2) then none
      else if !(pyStrip m.2).isEmpty && !validMult (pyStrip m.2) then
        some ⟨lineno, m.1 + 1, msgMult (pyStrip m.2), sevError⟩
      else none

/-- Pass 5 `_check_multiplicity`. -/
def checkMultiplicity (lines : List PyStr) : List ValidationError :=
  mapLines multiplicityLine 1 lines

/-- Message of a missing-constraint-block warning. -/
def msgConstraint (kw : PyStr) : PyStr :=
  pys "'" ++ kw ++ pys " constraint' should be followed by a block '{ expression }'."

/-- Whether the nearest following non-blank line contains `{`
(`False` when no non-blank line follows). -/
def nextNonblankBrace : List PyStr → Bool
  | [] => false
  | l :: ls => if (pyStrip l).isEmpty then nextNonblankBrace ls else containsChar '{' l

/-- One line of pass 6 `_check_constraint_blocks` (given the lines after it);
note that comment lines are not skipped. -/
def constraintLine (lineno : Nat) (line : PyStr) (rest : List PyStr) :
    List ValidationError :=
  match reSearch constraintMatcher line with
  | none => []
  | some (st, kw, len) =>
    if containsChar '{' (line.drop (st + len)) then []
    else if nextNonblankBrace rest then []
    else [⟨lineno, st + 1, msgConstraint kw, sevWarning⟩]

/-- Pass 6 `_check_constraint_blocks`. -/
def constraintPass : Nat → List PyStr → List ValidationError
  | _, [] => []
  | n, l :: rest => constraintLine n l rest ++ constraintPass (n + 1) rest

def checkConstraintBlocks (lines : List PyStr) : List ValidationError :=
  constraintPass 1 lines

/-- The anchored `needs_semi` regex `^\s*(import|alias)\s+.*[^;{}\s]\s*$`. -/
def needsSemi (line : PyStr) : Bool :=
  match firstLit [pys "import", pys "alias"] (ltrim line) with
  | none => false
  | some (_, tail) =>
    match tail with
    | [] => false
    | c :: _ =>
      isSpaceChar c &&
        (match (rtrim tail).getLast? with
         | some d => !(d == ';' || d == '{' || d == '}')
         | none => false)

def msgSemi : PyStr := pys "Import/alias statements should end with ';'."

/-- One line of pass 7 `_check_semicolons`; the reported column is
`len(line)`. -/
def semicolonsLine (lineno : Nat) (line : PyStr) : List ValidationError :=
  if needsSemi line then [⟨lineno, line.length, msgSemi, sevWarning⟩] else []

/-- Pass 7 `_check_semicolons`. -/
def checkSemicolons (lines : List PyStr) : List ValidationError :=
  mapLines semicolonsLine 1 lines

/-- Sort key order of `validate`: ascending `(line, col)` (Python tuple
comparison). -/
def diagLE (a b : ValidationError) : Prop :=
  a.line < b.line ∨ (a.line = b.line ∧ a.col ≤ b.col)

instance : DecidableRel diagLE := fun a b => by
  unfold diagLE; infer_instance

instance : IsTotal ValidationError diagLE :=
  ⟨by intro a b; unfold diagLE; omega⟩

instance : IsTrans ValidationError diagLE :=
  ⟨by intro a b c; unfold diagLE; omega⟩

/-- `SysMLv2Validator.validate`: all passes in order, then the stable sort by
`(line, col)`; returns the diagnostics and the symbol table. -/
def validate (source : PyStr) : List ValidationError × List (PyStr × Symbol) :=
  let lines := splitlines source
  let symbols := collectSymbols lines
  let errors :=
    checkBalanced lines ++ checkKeywords lines ++ checkTypeReferences symbols lines ++
    checkMultiplicity lines ++ checkConstraintBlocks lines ++ checkSemicolons lines
  (errors.insertionSort diagLE, symbols)

/-- `validate_sysmlv2`: the public convenience wrapper building the result
dict. -/
def validateSysmlv2 (source : PyStr) : ValidationResult :=
  let r := validate source
  let error_count := r.1.countP fun e => e.severity == sevError
  let warning_count := r.1.countP fun e => e.severity == sevWarning
  { valid := error_count == 0
    error_count := error_count
    warning_count := warning_count
    diagnostics := r.1
    symbols := r.2.map fun p => (p.1, ⟨p.2.kind, p.2.line, p.2.type_ref⟩) }

/-- The four lexical contexts the balance scanner distinguishes. -/
inductive LexClass where
  | code
  | lineComment
  | blockComment
  | stringLit
deriving DecidableEq, Repr

/-- The lexical classification the branch structure of `processChar` assigns
to the character `ch` when scanned in state `s` (the branches that `continue`
without examining delimiters are the comment/string contexts). -/
def charClass (s : BalState) (ch : Char) : LexClass :=
  if blockCommentAfter s ch && s.prevChar == some '*' && ch == '/' then
    LexClass.blockComment
  else if lineCommentAfter s ch then LexClass.lineComment
  else if blockCommentAfter s ch then LexClass.blockComment
  else if stringAfter s ch then LexClass.stringLit
  else LexClass.code

/-- The lexical classification of the character at 1-based position `(l, c)`
of the document: the scanner state is replayed over all preceding characters
and `charClass` is applied to the character itself. -/
def lexClassAt (lines : List PyStr) (l c : Nat) : LexClass :=
  let pre := processLines 1 (lines.take (l - 1)) balInit
  let line := lines.getD (l - 1) []
  let s := processChars l 1 (line.take (c - 1)) { pre with inLineComment := false }
  charClass s (line.getD (c - 1) ' ')

/-- Strict lexicographic order on `(line, col)` positions. -/
def posLt (a b : Nat × Nat) : Prop := a.1 < b.1 ∨ (a.1 = b.1 ∧ a.2 < b.2)

def entryPos (e : OpenD) : Nat × Nat := (e.line, e.col)

/-- Invariant of the balance scan: stack entries (most recent first) have
strictly decreasing positions, all strictly before the current position. -/
def StackOK (p : Nat × Nat) (st : List OpenD) : Prop :=
  st.Pairwise (fun a b => posLt (entryPos b) (entryPos a)) ∧
  ∀ e ∈ st, posLt (entryPos e) p

example : splitlines (pys "a\nb") = [pys "a", pys "b"] := by decide
example : splitlines (pys "") = [] := by decide
example : splitlines (pys "a\r\n\nb\n") = [pys "a", pys "", pys "b"] := by decide
example : firstInfixIdx (pys "block") (pys "x // block") = some 5 := by decide
example : pyStrip (pys "  a b\t") = pys "a b" := by decide

example :
    checkBalanced [pys "part def A \x7b"] =
      [⟨1, 12, msgUnclosed '{' '}', sevError⟩] := by decide

example : checkBalanced [pys "// \x7b nothing"] = [] := by decide

example : checkBalanced [pys "x (]"] =
    [⟨1, 4, msgMismatched ')' 1 3 ']', sevError⟩] := by decide

example :
    findIter usageMatcher 0 (pys "part motors : Motor [4]") =
      [(0, pys "part", pys "motors", pys "Motor")] := by decide

example :
    findIter defMatcher 0 (pys "part def A { part def B }") =
      [(0, pys "part", pys "A"), (13, pys "part", pys "B")] := by decide

example : findIter multMatcher 0 (pys "x [4x] [kg]") =
    [(2, pys "4x"), (7, pys "kg")] := by decide

example : reSearch constraintMatcher (pys "// require constraint") =
    some (3, pys "require", 18) := by decide

example : findIter specMatcher 0 (pys "part def Motor :> Actuator \x7b") =
    [(15, pys "Actuator")] := by decide

example : findIter usageMatcher 0 (pys "airport hub : T") =
    [(3, pys "port", pys "hub", pys "T")] := by decide

example :
    validateSysmlv2 (pys "part def A { attribute x : Real }") =
      { valid := true, error_count := 0, warning_count := 0, diagnostics := [],
        symbols := [(pys "A", ⟨pys "part_def", 1, none⟩),
                    (pys "x", ⟨pys "attribute", 1, some (pys "Real")⟩)] } := by decide

example :
    validateSysmlv2 (pys "part sensor : Altimeter") =
      { valid := true, error_count := 0, warning_count := 1,
        diagnostics := [⟨1, 15, msgUnresolvedType (pys "Altimeter"), sevWarning⟩],
        symbols := [(pys "sensor", ⟨pys "part", 1, some (pys "Altimeter")⟩)] } := by
  decide

example :
    (validateSysmlv2 (pys "part motors : Motor [4x]")).diagnostics =
      [⟨1, 15, msgUnresolvedType (pys "Motor"), sevWarning⟩,
       ⟨1, 21, msgMult (pys "4x"), sevError⟩] := by decide

example :
    (validateSysmlv2 (pys "require constraint")).diagnostics =
      [⟨1, 1, msgConstraint (pys "require"), sevWarning⟩] := by decide

example :
    (validateSysmlv2 (pys "// require constraint")).diagnostics =
      [⟨1, 4, msgConstraint (pys "require"), sevWarning⟩] := by decide

example :
    (validateSysmlv2 (pys "x // block")).diagnostics =
      [⟨1, 6, msgLegacy (pys "block") (pys "part def"), sevWarning⟩] := by decide

example :
    (validateSysmlv2 (pys "import ISQ")).diagnostics =
      [⟨1, 10, msgSemi, sevWarning⟩] := by decide

/-! Bridging lemmas between the sorted diagnostic list and the pass
outputs. -/

lemma diagnostics_eq (src : PyStr) :
    (validateSysmlv2 src).diagnostics =
      List.insertionSort diagLE
        (checkBalanced (splitlines src) ++ checkKeywords (splitlines src) ++
         checkTypeReferences (collectSymbols (splitlines src)) (splitlines src) ++
         checkMultiplicity (splitlines src) ++ checkConstraintBlocks (splitlines src) ++
         checkSemicolons (splitlines src)) := rfl

lemma mem_diagnostics_iff (src : PyStr) (d : ValidationError) :
    d ∈ (validateSysmlv2 src).diagnostics ↔
      d ∈ checkBalanced (splitlines src) ∨
      d ∈ checkKeywords (splitlines src) ∨
      d ∈ checkTypeReferences (collectSymbols (splitlines src)) (splitlines src) ∨
      d ∈ checkMultiplicity (splitlines src) ∨
      d ∈ checkConstraintBlocks (splitlines src) ∨
      d ∈ checkSemicolons (splitlines src) := by
  rw [diagnostics_eq, (List.perm_insertionSort diagLE _).mem_iff]
  simp [or_assoc]

lemma countP_diagnostics (src : PyStr) (p : ValidationError → Bool) :
    (validateSysmlv2 src).diagnostics.countP p =
      (checkBalanced (splitlines src)).countP p +
      (checkKeywords (splitlines src)).countP p +
      (checkTypeReferences (collectSymbols (splitlines src)) (splitlines src)).countP p +
      (checkMultiplicity (splitlines src)).countP p +
      (checkConstraintBlocks (splitlines src)).countP p +
      (checkSemicolons (splitlines src)).countP p := by
  rw [diagnostics_eq, (List.perm_insertionSort diagLE _).countP_eq]
  simp [List.countP_append]
  omega

/-- C1.  For every input document, `validate_sysmlv2` has `valid == true` iff
`error_count == 0`; the error count tallies only diagnostics of severity
"error" and the warning count only those of severity "warning", so warnings
never make `valid` false. -/
theorem claim_C1_valid_iff_no_errors (src : PyStr) :
    ((validateSysmlv2 src).valid = true ↔ (validateSysmlv2 src).error_count = 0) ∧
    (validateSysmlv2 src).error_count =
      (validateSysmlv2 src).diagnostics.countP (fun e => e.severity == sevError) ∧
    (validateSysmlv2 src).warning_count =
      (validateSysmlv2 src).diagnostics.countP (fun e => e.severity == sevWarning) := by
  refine ⟨?_, rfl, rfl⟩
  have h : (validateSysmlv2 src).valid = ((validateSysmlv2 src).error_count == 0) := rfl
  rw [h]
  simp

/-- C2.  On the empty input string the validator returns a result with an
empty diagnostics list, an empty symbol table, zero counts and `valid = true`
(totality itself holds by construction: every pass is a total function). -/
theorem claim_C2_total_empty_input :
    validateSysmlv2 (pys "") =
      { valid := true, error_count := 0, warning_count := 0,
        diagnostics := [], symbols := [] } := by decide

/-- C8.  For every input document the diagnostics returned by `validate` are
sorted ascending by the pair `(line, col)`. -/
theorem claim_C8_diagnostics_sorted (src : PyStr) :
    List.Sorted diagLE (validateSysmlv2 src).diagnostics := by
  rw [diagnostics_eq]
  exact List.sorted_insertionSort diagLE _

/-! Membership lemmas for the line-indexed pass combinators. -/

lemma mem_mapLines_intro {d : ValidationError} (f : Nat → PyStr → List ValidationError) :
    ∀ (lines : List PyStr) (n k : Nat) (line : PyStr),
      lines[k]? = some line → d ∈ f (n + k) line → d ∈ mapLines f n lines := by
  intro lines
  induction lines with
  | nil => intro n k line h; simp at h
  | cons l ls ih =>
    intro n k line h hd
    match k with
    | 0 =>
      simp at h
      subst h
      simpa [mapLines] using Or.inl hd
    | k + 1 =>
      simp at h
      have : d ∈ mapLines f (n + 1) ls := by
        refine ih (n + 1) k line h ?_
        have : n + 1 + k = n + (k + 1) := by omega
        rw [this]
        exact hd
      simpa [mapLines] using Or.inr this

lemma mem_mapLines_elim {d : ValidationError} (f : Nat → PyStr → List ValidationError) :
    ∀ (lines : List PyStr) (n : Nat),
      d ∈ mapLines f n lines →
      ∃ k line, lines[k]? = some line ∧ d ∈ f (n + k) line := by
  intro lines
  induction lines with
  | nil => intro n h; simp [mapLines] at h
  | cons l ls ih =>
    intro n h
    rw [mapLines, List.mem_append] at h
    rcases h with h | h
    · exact ⟨0, l, by simp, h⟩
    · obtain ⟨k, line, hk, hd⟩ := ih (n + 1) h
      refine ⟨k + 1, line, by simpa using hk, ?_⟩
      have : n + (k + 1) = n + 1 + k := by omega
      rw [this]
      exact hd

lemma mem_constraintPass_intro {d : ValidationError} :
    ∀ (lines : List PyStr) (n k : Nat) (line : PyStr),
      lines[k]? = some line →
      d ∈ constraintLine (n + k) line (lines.drop (k + 1)) →
      d ∈ constraintPass n lines := by
  intro lines
  induction lines with
  | nil => intro n k line h; simp at h
  | cons l ls ih =>
    intro n k line h hd
    match k with
    | 0 =>
      simp at h
      subst h
      simp only [List.drop_succ_cons, List.drop_zero] at hd
      simpa [constraintPass] using Or.inl hd
    | k + 1 =>
      simp at h
      have : d ∈ constraintPass (n + 1) ls := by
        refine ih (n + 1) k line h ?_
        have h1 : n + 1 + k = n + (k + 1) := by omega
        rw [h1]
        simpa using hd
      simpa [constraintPass] using Or.inr this

/-- C4.  Every typed usage matched on a non-comment, non-import line whose
type reference resolves neither in the symbol table nor among the builtins
produces an "Unresolved type reference" warning on that line; in particular
`"part sensor : Altimeter"` yields exactly that single warning. -/
theorem claim_C4_unresolved_type_reference :
    (∀ (src : PyStr) (k : Nat) (line : PyStr) (i : Nat) (ref : PyStr),
      (splitlines src)[k]? = some line →
      commentStart line = false →
      startsWithL (pys "import") (ltrim line) = false →
      (i, ref) ∈ findIter typeRefMatcher 0 line →
      resolvable (collectSymbols (splitlines src)) ref = false →
      (⟨k + 1, (firstInfixIdx ref line).getD 0 + 1, msgUnresolvedType ref,
         sevWarning⟩ : ValidationError) ∈ (validateSysmlv2 src).diagnostics) ∧
    (validateSysmlv2 (pys "part sensor : Altimeter")).diagnostics =
      [⟨1, 15, msgUnresolvedType (pys "Altimeter"), sevWarning⟩] := by
  constructor
  · intro src k line i ref hget hcmt himp hmem hres
    refine (mem_diagnostics_iff src _).2 (Or.inr (Or.inr (Or.inl ?_)))
    refine mem_mapLines_intro _ (splitlines src) 1 k line hget ?_
    have hk : 1 + k = k + 1 := by omega
    rw [hk]
    unfold typeRefsLine
    rw [hcmt, himp]
    simp only [Bool.or_self, Bool.false_eq_true, if_false, List.mem_append]
    exact Or.inl (List.mem_filterMap.2 ⟨(i, ref), hmem, by simp [hres]⟩)
  · decide

/-- C4 witness: the universal part applied to the single-line document
`"part sensor : Altimeter"`. -/
theorem claim_C4_witness :
    (⟨1, 15, msgUnresolvedType (pys "Altimeter"), sevWarning⟩ : ValidationError) ∈
      (validateSysmlv2 (pys "part sensor : Altimeter")).diagnostics := by
  have h :=
    claim_C4_unresolved_type_reference.1 (pys "part sensor : Altimeter") 0
      (pys "part sensor : Altimeter") 0 (pys "Altimeter")
      (by decide) (by decide) (by decide) (by decide) (by decide)
  simpa using h

/-- C5.  Every bracketed substring on a non-comment line whose stripped
content is non-alphabetic, nonempty, and fails the multiplicity grammar
produces an "Invalid multiplicity" error at the bracket; in particular
`"part motors : Motor [4x]"` yields exactly one error diagnostic, the invalid
multiplicity `[4x]` (beside one unresolved-reference warning). -/
theorem claim_C5_invalid_multiplicity :
    (∀ (src : PyStr) (k : Nat) (line : PyStr) (st : Nat) (raw : PyStr),
      (splitlines src)[k]? = some line →
      commentStart line = false →
      (st, raw) ∈ findIter multMatcher 0 line →
      pyIsAlpha (pyStrip raw) = false →
      (pyStrip raw).isEmpty = false →
      validMult (pyStrip raw) = false →
      (⟨k + 1, st + 1, msgMult (pyStrip raw), sevError⟩ : ValidationError) ∈
        (validateSysmlv2 src).diagnostics) ∧
    (validateSysmlv2 (pys "part motors : Motor [4x]")).diagnostics =
      [⟨1, 15, msgUnresolvedType (pys "Motor"), sevWarning⟩,
       ⟨1, 21, msgMult (pys "4x"), sevError⟩] ∧
    (validateSysmlv2 (pys "part motors : Motor [4x]")).error_count = 1 := by
  refine ⟨?_, by decide, by decide⟩
  intro src k line st raw hget hcmt hmem halpha hempty hvalid
  refine (mem_diagnostics_iff src _).2 (Or.inr (Or.inr (Or.inr (Or.inl ?_))))
  refine mem_mapLines_intro _ (splitlines src) 1 k line hget ?_
  have hk : 1 + k = k + 1 := by omega
  rw [hk]
  unfold multiplicityLine
  rw [hcmt]
  simp only [Bool.false_eq_true, if_false]
  exact List.mem_filterMap.2 ⟨(st, raw), hmem, by simp [halpha, hempty, hvalid]⟩

/-- C5 witness: the universal part applied to
`"part motors : Motor [4x]"`. -/
theorem claim_C5_witness :
    (⟨1, 21, msgMult (pys "4x"), sevError⟩ : ValidationError) ∈
      (validateSysmlv2 (pys "part motors : Motor [4x]")).diagnostics := by
  have h :=
    claim_C5_invalid_multiplicity.1 (pys "part motors : Motor [4x]") 0
      (pys "part motors : Motor [4x]") 20 (pys "4x")
      (by decide) (by decide) (by decide) (by decide) (by decide) (by decide)
  simpa using h

/-- C10.  The constraint-block checker does not skip comment lines: every
line (comment or not) whose first `(require|assume|assert)\s+constraint\b`
match is followed by no `{` on the rest of the line and none on the nearest
following non-blank line yields the missing-constraint-block warning at the
match; in particular the pure comment line `"// require constraint"` warns. -/
theorem claim_C10_constraint_checker_ignores_comments :
    (∀ (src : PyStr) (k : Nat) (line : PyStr) (st len : Nat) (kw : PyStr),
      (splitlines src)[k]? = some line →
      reSearch constraintMatcher line = some (st, kw, len) →
      containsChar '{' (line.drop (st + len)) = false →
      nextNonblankBrace ((splitlines src).drop (k + 1)) = false →
      (⟨k + 1, st + 1, msgConstraint kw, sevWarning⟩ : ValidationError) ∈
        (validateSysmlv2 src).diagnostics) ∧
    (validateSysmlv2 (pys "// require constraint")).diagnostics =
      [⟨1, 4, msgConstraint (pys "require"), sevWarning⟩] := by
  refine ⟨?_, by decide⟩
  intro src k line st len kw hget hsearch hbrace hnext
  refine (mem_diagnostics_iff src _).2
    (Or.inr (Or.inr (Or.inr (Or.inr (Or.inl ?_)))))
  refine mem_constraintPass_intro (splitlines src) 1 k line hget ?_
  have hk : 1 + k = k + 1 := by omega
  rw [hk]
  unfold constraintLine
  rw [hsearch]
  simp [hbrace, hnext]

/-- C10 witness: the universal part applied to the comment line
`"// require constraint"`. -/
theorem claim_C10_witness :
    (⟨1, 4, msgConstraint (pys "require"), sevWarning⟩ : ValidationError) ∈
      (validateSysmlv2 (pys "// require constraint")).diagnostics := by
  have h :=
    claim_C10_constraint_checker_ignores_comments.1 (pys "// require constraint") 0
      (pys "// require constraint") 3 18 (pys "require")
      (by decide) (by decide) (by decide) (by decide)
  simpa using h

/-! Lemmas about the Python-dict association list used for the symbol
table. -/

lemma dictLookup_dictInsert_self (k : PyStr) (v : Symbol) (d : List (PyStr × Symbol)) :
    dictLookup k (dictInsert k v d) = some v := by
  induction d with
  | nil => simp [dictInsert, dictLookup]
  | cons p rest ih =>
    by_cases h : p.1 == k
    · obtain ⟨k', v'⟩ := p
      simp only [dictInsert]
      rw [if_pos h]
      simp [dictLookup]
    · obtain ⟨k', v'⟩ := p
      simp only [dictInsert]
      rw [if_neg h]
      simp only [dictLookup]
      rw [if_neg h]
      exact ih

lemma dictLookup_dictInsert_other (k k' : PyStr) (v : Symbol)
    (d : List (PyStr × Symbol)) (h : ¬ (k' == k) = true) :
    dictLookup k (dictInsert k' v d) = dictLookup k d := by
  induction d with
  | nil => simp only [dictInsert, dictLookup]; rw [if_neg h]
  | cons p rest ih =>
    obtain ⟨k2, v2⟩ := p
    by_cases h2 : k2 == k'
    · have hk2 : k2 = k' := by simpa using h2
      subst hk2
      simp only [dictInsert]
      rw [if_pos (by simp)]
      simp only [dictLookup]
      rw [if_neg h, if_neg h]
    · simp only [dictInsert]
      rw [if_neg h2]
      simp only [dictLookup]
      by_cases h3 : k2 == k
      · rw [if_pos h3, if_pos h3]
      · rw [if_neg h3, if_neg h3]
        exact ih

/-- Looking a key up after folding the match list into the dict returns the
value of the last match for that key, or falls back to the initial dict. -/
lemma dictLookup_foldl (k : PyStr) :
    ∀ (ms : List (PyStr × Symbol)) (d : List (PyStr × Symbol)),
      dictLookup k (ms.foldl (fun acc m => dictInsert m.1 m.2 acc) d) =
        (match (ms.filter fun m => m.1 == k).getLast? with
         | some m => some m.2
         | none => dictLookup k d) := by
  intro ms
  induction ms using List.reverseRecOn with
  | nil => intro d; simp
  | append_singleton ms m ih =>
    intro d
    rw [List.foldl_append, List.foldl_cons, List.foldl_nil, List.filter_append]
    by_cases h : m.1 == k
    · have hk : m.1 = k := by simpa using h
      simp only [List.filter_cons, h, List.filter_nil, if_true]
      rw [List.getLast?_concat]
      rw [hk]
      exact dictLookup_dictInsert_self k m.2 _
    · simp only [List.filter_cons, List.filter_nil]
      rw [if_neg h, List.append_nil]
      rw [dictLookup_dictInsert_other _ _ _ _ h]
      exact ih d

lemma mem_keys_dictInsert (a k : PyStr) (v : Symbol) (d : List (PyStr × Symbol)) :
    a ∈ (dictInsert k v d).map Prod.fst ↔ a ∈ d.map Prod.fst ∨ a = k := by
  induction d with
  | nil => simp [dictInsert]
  | cons p rest ih =>
    obtain ⟨k2, v2⟩ := p
    by_cases h : k2 == k
    · have hk : k2 = k := by simpa using h
      subst hk
      simp only [dictInsert]
      rw [if_pos (by simp)]
      simp only [List.map_cons, List.mem_cons]
      constructor
      · rintro (rfl | h2)
        · exact Or.inr rfl
        · exact Or.inl (Or.inr h2)
      · rintro ((rfl | h2) | rfl)
        · exact Or.inl rfl
        · exact Or.inr h2
        · exact Or.inl rfl
    · simp only [dictInsert]
      rw [if_neg h]
      simp only [List.map_cons, List.mem_cons, ih]
      tauto

lemma nodup_keys_dictInsert (k : PyStr) (v : Symbol) (d : List (PyStr × Symbol))
    (h : (d.map Prod.fst).Nodup) : ((dictInsert k v d).map Prod.fst).Nodup := by
  induction d with
  | nil => simp [dictInsert]
  | cons p rest ih =>
    obtain ⟨k2, v2⟩ := p
    simp only [List.map_cons, List.nodup_cons] at h
    by_cases h2 : k2 == k
    · have hk : k2 = k := by simpa using h2
      subst hk
      simp only [dictInsert]
      rw [if_pos (by simp)]
      simp only [List.map_cons, List.nodup_cons]
      exact h
    · simp only [dictInsert]
      rw [if_neg h2]
      simp only [List.map_cons, List.nodup_cons]
      refine ⟨?_, ih h.2⟩
      rw [mem_keys_dictInsert]
      rintro (hmem | rfl)
      · exact h.1 hmem
      · simp at h2

lemma nodup_keys_collectSymbols (lines : List PyStr) :
    ((collectSymbols lines).map Prod.fst).Nodup := by
  unfold collectSymbols
  generalize symbolMatches 1 lines = ms
  induction ms using List.reverseRecOn with
  | nil => simp
  | append_singleton ms m ih =>
    rw [List.foldl_append, List.foldl_cons, List.foldl_nil]
    exact nodup_keys_dictInsert _ _ _ ih

lemma dictLookup_isSome_mem_keys (k : PyStr) (d : List (PyStr × Symbol))
    (h : (dictLookup k d).isSome) : k ∈ d.map Prod.fst := by
  induction d with
  | nil => simp [dictLookup] at h
  | cons p rest ih =>
    obtain ⟨k2, v2⟩ := p
    simp only [dictLookup] at h
    by_cases h2 : k2 == k
    · have hk : k2 = k := by simpa using h2
      subst hk
      simp
    · rw [if_neg h2] at h
      simp only [List.map_cons, List.mem_cons]
      exact Or.inr (ih h)

lemma lookup_snapshot (name : PyStr) (d : List (PyStr × Symbol)) :
    List.lookup name (d.map fun p => (p.1, (⟨p.2.kind, p.2.line, p.2.type_ref⟩ : SymbolInfo))) =
      (dictLookup name d).map fun s => (⟨s.kind, s.line, s.type_ref⟩ : SymbolInfo) := by
  induction d with
  | nil => simp [dictLookup]
  | cons p rest ih =>
    obtain ⟨k2, v2⟩ := p
    by_cases hk : k2 = name
    · subst hk
      simp [List.lookup, dictLookup]
    · have h1 : (name == k2) = false := by simp [Ne.symm hk]
      have h2 : (k2 == name) = false := by simp [hk]
      simp only [List.map_cons, List.lookup, dictLookup, h1, h2]
      exact ih

lemma countP_eq_one_of_nodup_mem (l : List PyStr) (name : PyStr)
    (h : l.Nodup) (hm : name ∈ l) : l.countP (fun x => x == name) = 1 := by
  induction l with
  | nil => simp at hm
  | cons a t ih =>
    simp only [List.nodup_cons] at h
    rcases List.mem_cons.1 hm with rfl | hm2
    · rw [List.countP_cons]
      have hz : t.countP (fun x => x == name) = 0 :=
        List.countP_eq_zero.2 fun x hx => by
          intro hb
          exact h.1 (by simpa using (by simpa using hb : x = name) ▸ hx)
      simp [hz]
    · rw [List.countP_cons]
      have ha : (a == name) = false := by
        have : a ≠ name := fun e => h.1 (e ▸ hm2)
        simp [this]
      rw [ih h.2 hm2, ha]
      simp

/-- C7.  When two or more symbol-table matches share a name, the returned
symbols mapping holds exactly one entry for that name, carrying the kind,
line, and type_ref of the last match in scan order. -/
theorem claim_C7_last_match_wins (src name : PyStr) (sym : Symbol)
    (_h2 : 2 ≤ (symbolMatches 1 (splitlines src)).countP (fun m => m.1 == name))
    (hl : ((symbolMatches 1 (splitlines src)).filter fun m => m.1 == name).getLast? =
      some (name, sym)) :
    List.lookup name (validateSysmlv2 src).symbols =
      some ⟨sym.kind, sym.line, sym.type_ref⟩ ∧
    (validateSysmlv2 src).symbols.countP (fun e => e.1 == name) = 1 := by
  have hsnap : (validateSysmlv2 src).symbols =
      (collectSymbols (splitlines src)).map
        fun p => (p.1, (⟨p.2.kind, p.2.line, p.2.type_ref⟩ : SymbolInfo)) := rfl
  have hlook : dictLookup name (collectSymbols (splitlines src)) = some sym := by
    unfold collectSymbols
    rw [dictLookup_foldl, hl]
  constructor
  · rw [hsnap, lookup_snapshot, hlook]
    rfl
  · rw [hsnap, List.countP_map]
    have hkeys := List.countP_map (fun x => x == name)
      (Prod.fst : PyStr × Symbol → PyStr) (collectSymbols (splitlines src))
    have hmem : name ∈ (collectSymbols (splitlines src)).map Prod.fst :=
      dictLookup_isSome_mem_keys _ _ (by rw [hlook]; rfl)
    have hnd := nodup_keys_collectSymbols (splitlines src)
    have hone := countP_eq_one_of_nodup_mem _ _ hnd hmem
    rw [hkeys] at hone
    exact hone

/-- C7 witness: in `"part def A {}"` followed by `"attribute A : Real"`, the
name `A` is matched twice and only the second record survives. -/
theorem claim_C7_witness :
    List.lookup (pys "A")
        (validateSysmlv2 (pys "part def A {}\nattribute A : Real")).symbols =
      some ⟨pys "attribute", 2, some (pys "Real")⟩ ∧
    (validateSysmlv2 (pys "part def A {}\nattribute A : Real")).symbols.countP
        (fun e => e.1 == pys "A") = 1 := by
  exact claim_C7_last_match_wins (pys "part def A {}\nattribute A : Real") (pys "A")
    ⟨pys "A", pys "attribute", 2, none, some (pys "Real"), []⟩
    (by decide) (by decide)

/-! Message discrimination: each diagnostic message carries a fixed prefix
identifying the pass that produced it. -/

lemma take3_msgUnmatched (a : Char) : (msgUnmatched a).take 3 = pys "Unm" := rfl

lemma take3_msgMismatched (e : Char) (ol oc : Nat) (c : Char) :
    (msgMismatched e ol oc c).take 3 = pys "Mis" := rfl

lemma take3_msgUnclosed (a b : Char) : (msgUnclosed a b).take 3 = pys "Unc" := rfl

lemma take3_msgUnresolvedType (r : PyStr) :
    (msgUnresolvedType r).take 3 = pys "Unr" := rfl

lemma take3_msgUnresolvedSpec (r : PyStr) :
    (msgUnresolvedSpec r).take 3 = pys "Unr" := rfl

lemma take1_msgLegacy (kw sugg : PyStr) : (msgLegacy kw sugg).take 1 = pys "'" := rfl

lemma take3_msgMult (c : PyStr) : (msgMult c).take 3 = pys "Inv" := rfl

lemma take1_msgConstraint (kw : PyStr) : (msgConstraint kw).take 1 = pys "'" := rfl

lemma ne_of_take_ne (m1 m2 : PyStr) (k : Nat) (h : m1.take k ≠ m2.take k) :
    m1 ≠ m2 := fun e => h (e ▸ rfl)

/-! Shape lemmas: what every diagnostic emitted by each pass looks like. -/

lemma keywordsLine_shape (n : Nat) (l : PyStr) :
    ∀ d ∈ keywordsLine n l,
      d.severity = sevWarning ∧ d.line = n ∧ ∃ kw sugg, d.message = msgLegacy kw sugg := by
  intro d hd
  unfold keywordsLine at hd
  split at hd
  · simp at hd
  · obtain ⟨p, _, he⟩ := List.mem_filterMap.1 hd
    match hidx : firstInfixIdx p.1 l with
    | none => rw [hidx] at he; simp at he
    | some idx =>
      rw [hidx] at he
      simp only [Option.map_some'] at he
      obtain rfl := Option.some.inj he
      exact ⟨rfl, rfl, p.1, p.2, rfl⟩

lemma typeRefsLine_shape (symbols : List (PyStr × Symbol)) (n : Nat) (l : PyStr) :
    ∀ d ∈ typeRefsLine symbols n l,
      d.severity = sevWarning ∧ d.line = n ∧
        ((∃ r, d.message = msgUnresolvedType r) ∨ ∃ r, d.message = msgUnresolvedSpec r) := by
  intro d hd
  unfold typeRefsLine at hd
  split at hd
  · simp at hd
  · rcases List.mem_append.1 hd with h | h
    · obtain ⟨m, _, he⟩ := List.mem_filterMap.1 h
      split at he
      · simp at he
      · obtain rfl := Option.some.inj he
        exact ⟨rfl, rfl, Or.inl ⟨m.2, rfl⟩⟩
    · obtain ⟨m, _, he⟩ := List.mem_filterMap.1 h
      split at he
      · simp at he
      · obtain rfl := Option.some.inj he
        exact ⟨rfl, rfl, Or.inr ⟨m.2, rfl⟩⟩

lemma multiplicityLine_shape (n : Nat) (l : PyStr) :
    ∀ d ∈ multiplicityLine n l,
      d.severity = sevError ∧ d.line = n ∧ ∃ c, d.message = msgMult c := by
  intro d hd
  unfold multiplicityLine at hd
  split at hd
  · simp at hd
  · obtain ⟨m, _, he⟩ := List.mem_filterMap.1 hd
    split at he
    · simp at he
    · split at he
      · obtain rfl := Option.some.inj he
        exact ⟨rfl, rfl, _, rfl⟩
      · simp at he

lemma constraintLine_shape (n : Nat) (l : PyStr) (rest : List PyStr) :
    ∀ d ∈ constraintLine n l rest,
      d.severity = sevWarning ∧ d.line = n ∧ ∃ kw, d.message = msgConstraint kw := by
  intro d hd
  unfold constraintLine at hd
  split at hd
  · simp at hd
  · split at hd
    · simp at hd
    · split at hd
      · simp at hd
      · obtain rfl := List.mem_singleton.1 hd
        exact ⟨rfl, rfl, _, rfl⟩

lemma semicolonsLine_shape (n : Nat) (l : PyStr) :
    ∀ d ∈ semicolonsLine n l,
      d.severity = sevWarning ∧ d.line = n ∧ d.message = msgSemi := by
  intro d hd
  unfold semicolonsLine at hd
  split at hd
  · obtain rfl := List.mem_singleton.1 hd
    exact ⟨rfl, rfl, rfl⟩
  · simp at hd

lemma mapLines_shape {P : ValidationError → Prop}
    (f : Nat → PyStr → List ValidationError)
    (hf : ∀ n l d, d ∈ f n l → P d) :
    ∀ (lines : List PyStr) (n : Nat) (d : ValidationError),
      d ∈ mapLines f n lines → P d := by
  intro lines n d hd
  obtain ⟨k, line, _, h⟩ := mem_mapLines_elim f lines n hd
  exact hf _ _ _ h

lemma mem_constraintPass_elim {d : ValidationError} :
    ∀ (lines : List PyStr) (n : Nat),
      d ∈ constraintPass n lines →
      ∃ k line, lines[k]? = some line ∧
        d ∈ constraintLine (n + k) line (lines.drop (k + 1)) := by
  intro lines
  induction lines with
  | nil => intro n h; simp [constraintPass] at h
  | cons l ls ih =>
    intro n h
    rw [constraintPass, List.mem_append] at h
    rcases h with h | h
    · exact ⟨0, l, by simp, by simpa using h⟩
    · obtain ⟨k, line, hk, hd⟩ := ih (n + 1) h
      refine ⟨k + 1, line, by simpa using hk, ?_⟩
      have : n + (k + 1) = n + 1 + k := by omega
      rw [this]
      simpa using hd

/-- The balance-scan phase only emits severity-"error" diagnostics whose
message starts with "Unm" (unmatched) or "Mis" (mismatched). -/
def scanShape (d : ValidationError) : Prop :=
  d.severity = sevError ∧
    (d.message.take 3 = pys "Unm" ∨ d.message.take 3 = pys "Mis")

/-- Case characterization of the error list after one scan step: unchanged,
or extended by one Unmatched error, or extended by one Mismatched error, in
each case at the current position. -/
lemma processChar_errors_eq (n c : Nat) (ch : Char) (s : BalState) :
    (processChar n c ch s).errors = s.errors ∨
    (∃ a, (processChar n c ch s).errors =
      s.errors ++ [⟨n, c, msgUnmatched a, sevError⟩]) ∨
    (∃ e ol oc a, (processChar n c ch s).errors =
      s.errors ++ [⟨n, c, msgMismatched e ol oc a, sevError⟩]) := by
  unfold processChar
  repeat' split
  all_goals first
    | exact Or.inl rfl
    | exact Or.inr (Or.inl ⟨_, rfl⟩)
    | exact Or.inr (Or.inr ⟨_, _, _, _, rfl⟩)

lemma processChar_scanShape (n c : Nat) (ch : Char) (s : BalState) :
    ∀ d ∈ (processChar n c ch s).errors, d ∈ s.errors ∨ scanShape d := by
  intro d hd
  rcases processChar_errors_eq n c ch s with h | ⟨a, h⟩ | ⟨e, ol, oc, a, h⟩
  · rw [h] at hd
    exact Or.inl hd
  · rw [h] at hd
    rcases List.mem_append.1 hd with h2 | h2
    · exact Or.inl h2
    · obtain rfl := List.mem_singleton.1 h2
      exact Or.inr ⟨rfl, Or.inl (take3_msgUnmatched _)⟩
  · rw [h] at hd
    rcases List.mem_append.1 hd with h2 | h2
    · exact Or.inl h2
    · obtain rfl := List.mem_singleton.1 h2
      exact Or.inr ⟨rfl, Or.inr (take3_msgMismatched _ _ _ _)⟩

lemma processChars_scanShape (n : Nat) :
    ∀ (l : PyStr) (c : Nat) (s : BalState) (d : ValidationError),
      d ∈ (processChars n c l s).errors → d ∈ s.errors ∨ scanShape d := by
  intro l
  induction l with
  | nil => intro c s d hd; exact Or.inl hd
  | cons x xs ih =>
    intro c s d hd
    rcases ih (c + 1) (processChar n c x s) d hd with h | h
    · exact processChar_scanShape n c x s d h
    · exact Or.inr h

lemma processLines_scanShape :
    ∀ (ls : List PyStr) (n : Nat) (s : BalState) (d : ValidationError),
      d ∈ (processLines n ls s).errors → d ∈ s.errors ∨ scanShape d := by
  intro ls
  induction ls with
  | nil => intro n s d hd; exact Or.inl hd
  | cons x xs ih =>
    intro n s d hd
    rcases ih (n + 1) _ d hd with h | h
    · exact processChars_scanShape n x 1 { s with inLineComment := false } d h
    · exact Or.inr h

/-- Every diagnostic of pass 1 is a severity-"error" scan diagnostic or an
Unclosed diagnostic generated from a residual stack entry. -/
lemma checkBalanced_shape (lines : List PyStr) :
    ∀ d ∈ checkBalanced lines,
      scanShape d ∨
        ∃ e : OpenD, e ∈ (processLines 1 lines balInit).stack ∧
          d = ⟨e.line, e.col, msgUnclosed e.ch (pairClose e.ch), sevError⟩ := by
  intro d hd
  unfold checkBalanced at hd
  rcases List.mem_append.1 hd with h | h
  · rcases processLines_scanShape lines 1 balInit d h with h2 | h2
    · simp [balInit] at h2
    · exact Or.inl h2
  · obtain ⟨e, he, rfl⟩ := List.mem_map.1 h
    exact Or.inr ⟨e, (List.mem_reverse).1 he, rfl⟩

/-- Every diagnostic the validator ever returns has severity "error" or
"warning". -/
lemma diag_severity (src : PyStr) :
    ∀ d ∈ (validateSysmlv2 src).diagnostics,
      d.severity = sevError ∨ d.severity = sevWarning := by
  intro d hd
  rcases (mem_diagnostics_iff src d).1 hd with h | h | h | h | h | h
  · rcases checkBalanced_shape _ d h with h2 | ⟨e, _, rfl⟩
    · exact Or.inl h2.1
    · exact Or.inl rfl
  · exact Or.inr (mapLines_shape keywordsLine
      (fun n l d hd => (keywordsLine_shape n l d hd).1) _ _ _ h)
  · exact Or.inr (mapLines_shape _
      (fun n l d hd => (typeRefsLine_shape _ n l d hd).1) _ _ _ h)
  · exact Or.inl (mapLines_shape multiplicityLine
      (fun n l d hd => (multiplicityLine_shape n l d hd).1) _ _ _ h)
  · obtain ⟨k, line, _, h2⟩ := mem_constraintPass_elim _ _ h
    exact Or.inr (constraintLine_shape _ _ _ d h2).1
  · exact Or.inr (mapLines_shape semicolonsLine
      (fun n l d hd => (semicolonsLine_shape n l d hd).1) _ _ _ h)

/-- C9.  Every diagnostic has severity "error" or "warning", and
`error_count + warning_count` equals the number of diagnostics. -/
theorem claim_C9_severity_partition (src : PyStr) :
    (∀ d ∈ (validateSysmlv2 src).diagnostics,
       d.severity = sevError ∨ d.severity = sevWarning) ∧
    (validateSysmlv2 src).error_count + (validateSysmlv2 src).warning_count =
      (validateSysmlv2 src).diagnostics.length := by
  refine ⟨diag_severity src, ?_⟩
  have hE : (validateSysmlv2 src).error_count =
      (validateSysmlv2 src).diagnostics.countP (fun e => e.severity == sevError) := rfl
  have hW : (validateSysmlv2 src).warning_count =
      (validateSysmlv2 src).diagnostics.countP (fun e => e.severity == sevWarning) := rfl
  rw [hE, hW,
    List.length_eq_countP_add_countP (fun e => e.severity == sevError)
      (validateSysmlv2 src).diagnostics]
  congr 1
  apply List.countP_congr
  intro x hx
  rcases diag_severity src x hx with h | h <;> rw [h] <;> decide

/-- C9 witness: on `"x // block"` the single diagnostic has severity
"warning" and the counts add up to the diagnostic-list length. -/
theorem claim_C9_witness :
    ((⟨1, 6, msgLegacy (pys "block") (pys "part def"), sevWarning⟩ : ValidationError) ∈
        (validateSysmlv2 (pys "x // block")).diagnostics →
      (⟨1, 6, msgLegacy (pys "block") (pys "part def"), sevWarning⟩ :
        ValidationError).severity = sevError ∨
      (⟨1, 6, msgLegacy (pys "block") (pys "part def"), sevWarning⟩ :
        ValidationError).severity = sevWarning) ∧
    (validateSysmlv2 (pys "x // block")).error_count +
        (validateSysmlv2 (pys "x // block")).warning_count =
      (validateSysmlv2 (pys "x // block")).diagnostics.length := by
  exact ⟨(claim_C9_severity_partition (pys "x // block")).1 _,
    (claim_C9_severity_partition (pys "x // block")).2⟩

/-- C3 counterexample.  In the document `"x // block"` the token `block`
occupies columns 6-10, inside a line comment (the scanner classifies column 6
as line-comment context), yet the validator emits a legacy-keyword warning at
column 6: the keyword passes only skip lines that start with a comment
marker.  This refutes the claim that tokens inside comments never produce
diagnostics. -/
theorem claim_C3_counterexample :
    lexClassAt (splitlines (pys "x // block")) 1 6 = LexClass.lineComment ∧
    (validateSysmlv2 (pys "x // block")).diagnostics =
      [⟨1, 6, msgLegacy (pys "block") (pys "part def"), sevWarning⟩] := by
  exact ⟨by decide, by decide⟩

/-- C3 as amended.  (a) A character whose scan context is a line comment,
block comment, or string literal never changes the delimiter checker's error
list or stack, so delimiters inside comments/strings produce no delimiter
diagnostics.  (b) The legacy-keyword and type-reference passes produce no
diagnostic for a line whose stripped text starts with `//` or `/*`; however
(per the counterexample) a legacy keyword or type reference inside a comment
on a line not starting with a comment marker can still produce a
diagnostic. -/
theorem claim_C3_amended_comment_handling :
    (∀ (n c : Nat) (ch : Char) (s : BalState),
      charClass s ch ≠ LexClass.code →
      (processChar n c ch s).errors = s.errors ∧
      (processChar n c ch s).stack = s.stack) ∧
    (∀ (src : PyStr) (k : Nat) (line : PyStr),
      (splitlines src)[k]? = some line →
      commentStart line = true →
      (∀ d ∈ checkKeywords (splitlines src), d.line ≠ k + 1) ∧
      (∀ d ∈ checkTypeReferences (collectSymbols (splitlines src)) (splitlines src),
        d.line ≠ k + 1)) := by
  constructor
  · intro n c ch s
    unfold charClass processChar
    repeat' split
    all_goals intro h
    all_goals first
      | exact ⟨rfl, rfl⟩
      | exact absurd rfl h
      | simp_all
  · intro src k line hget hcs
    constructor
    · intro d hd he
      obtain ⟨j, lj, hj, hdj⟩ := mem_mapLines_elim keywordsLine _ 1 hd
      have hline : d.line = 1 + j := (keywordsLine_shape _ _ d hdj).2.1
      have hjk : j = k := by omega
      subst hjk
      rw [hget] at hj
      obtain rfl := Option.some.inj hj
      unfold keywordsLine at hdj
      rw [hcs] at hdj
      simp at hdj
    · intro d hd he
      obtain ⟨j, lj, hj, hdj⟩ := mem_mapLines_elim _ _ 1 hd
      have hline : d.line = 1 + j := (typeRefsLine_shape _ _ _ d hdj).2.1
      have hjk : j = k := by omega
      subst hjk
      rw [hget] at hj
      obtain rfl := Option.some.inj hj
      unfold typeRefsLine at hdj
      rw [hcs] at hdj
      simp at hdj

/-- C3 witness: a concrete comment-context scan step that leaves the
delimiter state untouched, and a concrete comment line contributing no
keyword diagnostics. -/
theorem claim_C3_witness :
    ((processChar 1 6 '{' ⟨[], [], false, true, false, some ' '⟩).errors =
        (⟨[], [], false, true, false, some ' '⟩ : BalState).errors ∧
      (processChar 1 6 '{' ⟨[], [], false, true, false, some ' '⟩).stack =
        (⟨[], [], false, true, false, some ' '⟩ : BalState).stack) ∧
    (∀ d ∈ checkKeywords (splitlines (pys "// block")), d.line ≠ 1) := by
  exact ⟨claim_C3_amended_comment_handling.1 1 6 '{' _ (by decide),
    (claim_C3_amended_comment_handling.2 (pys "// block") 0 (pys "// block")
      (by decide) (by decide)).1⟩

/-! Stack-position machinery for the Unclosed-delimiter uniqueness claim. -/

lemma posLt_irrefl (a : Nat × Nat) : ¬ posLt a a := by
  unfold posLt
  omega

lemma posLt_step {a : Nat × Nat} {n c : Nat} (h : posLt a (n, c)) :
    posLt a (n, c + 1) := by
  unfold posLt at *
  omega

lemma posLt_nextline {a : Nat × Nat} {n c c' : Nat} (h : posLt a (n, c)) :
    posLt a (n + 1, c') := by
  unfold posLt at *
  omega

/-- Case characterization of the stack after one scan step: unchanged, pushed
with the current position, or popped. -/
lemma processChar_stack_eq (n c : Nat) (ch : Char) (s : BalState) :
    (processChar n c ch s).stack = s.stack ∨
    (processChar n c ch s).stack = (⟨ch, n, c⟩ : OpenD) :: s.stack ∨
    (∃ top rest, s.stack = top :: rest ∧ (processChar n c ch s).stack = rest) := by
  unfold processChar
  repeat' split
  all_goals first
    | exact Or.inl rfl
    | exact Or.inr (Or.inl rfl)
    | (rename_i hst _
       exact Or.inr (Or.inr ⟨_, _, hst, rfl⟩))

lemma stackOK_processChar (n c : Nat) (ch : Char) (s : BalState)
    (h : StackOK (n, c) s.stack) :
    StackOK (n, c + 1) (processChar n c ch s).stack := by
  rcases processChar_stack_eq n c ch s with heq | heq | ⟨top, rest, hst, heq⟩
  · rw [heq]
    exact ⟨h.1, fun e he => posLt_step (h.2 e he)⟩
  · rw [heq]
    constructor
    · refine List.Pairwise.cons ?_ h.1
      intro b hb
      exact h.2 b hb
    · intro e he
      rcases List.mem_cons.1 he with rfl | he2
      · unfold entryPos posLt
        simp
      · exact posLt_step (h.2 e he2)
  · rw [heq]
    have h1 := h.1
    have h2 := h.2
    rw [hst] at h1 h2
    exact ⟨h1.of_cons, fun e he => posLt_step (h2 e (List.mem_cons_of_mem top he))⟩

lemma stackOK_processChars (n : Nat) :
    ∀ (l : PyStr) (c : Nat) (s : BalState),
      StackOK (n, c) s.stack →
      ∃ c', StackOK (n, c') (processChars n c l s).stack := by
  intro l
  induction l with
  | nil => intro c s h; exact ⟨c, h⟩
  | cons x xs ih =>
    intro c s h
    exact ih (c + 1) (processChar n c x s) (stackOK_processChar n c x s h)

lemma stackOK_processLines :
    ∀ (ls : List PyStr) (n : Nat) (s : BalState),
      StackOK (n, 1) s.stack →
      ∃ n' c', StackOK (n', c') (processLines n ls s).stack := by
  intro ls
  induction ls with
  | nil => intro n s h; exact ⟨n, 1, h⟩
  | cons x xs ih =>
    intro n s h
    obtain ⟨c', hc⟩ := stackOK_processChars n x 1 { s with inLineComment := false } h
    refine ih (n + 1) _ ⟨hc.1, fun e he => posLt_nextline (hc.2 e he)⟩

/-- The residual stack of the full scan has pairwise distinct, strictly
decreasing positions. -/
lemma finalStack_pairwise (lines : List PyStr) :
    ((processLines 1 lines balInit).stack).Pairwise
      (fun a b => posLt (entryPos b) (entryPos a)) := by
  obtain ⟨n', c', h⟩ := stackOK_processLines lines 1 balInit
    (by constructor <;> simp [balInit])
  exact h.1

lemma countP_eq_one_of_unique {α : Type} (p : α → Bool) :
    ∀ (l : List α), l.Pairwise (fun x y => ¬(p x = true ∧ p y = true)) →
      ∀ a ∈ l, p a = true → l.countP p = 1 := by
  intro l
  induction l with
  | nil => intro _ a ha; simp at ha
  | cons x t ih =>
    intro hp a ha hpa
    have hx := List.pairwise_cons.1 hp
    by_cases hpx : p x = true
    · have hz : t.countP p = 0 :=
        List.countP_eq_zero.2 fun y hy hpy => hx.1 y hy ⟨hpx, hpy⟩
      rw [List.countP_cons, hz, hpx]
      simp
    · have hat : a ∈ t := by
        rcases List.mem_cons.1 ha with rfl | h2
        · exact absurd hpa hpx
        · exact h2
      rw [List.countP_cons, ih hx.2 a hat hpa]
      simp [hpx]

lemma take1_msgUnclosed (a b : Char) : (msgUnclosed a b).take 1 = pys "U" := rfl

lemma take1_msgSemi : msgSemi.take 1 = pys "I" := rfl

/-- C6.  Every opening delimiter left on the scan stack at end of input
produces an "Unclosed" error diagnostic at the opener's original `(line,
col)`, and no other diagnostic of the whole run matches that position and
message: the count of matching diagnostics is exactly one. -/
theorem claim_C6_unclosed_unique (src : PyStr) (e : OpenD)
    (he : e ∈ (processLines 1 (splitlines src) balInit).stack) :
    (⟨e.line, e.col, msgUnclosed e.ch (pairClose e.ch), sevError⟩ : ValidationError) ∈
      (validateSysmlv2 src).diagnostics ∧
    (validateSysmlv2 src).diagnostics.countP (fun d =>
      decide (d.line = e.line ∧ d.col = e.col ∧
        d.message = msgUnclosed e.ch (pairClose e.ch))) = 1 := by
  constructor
  · refine (mem_diagnostics_iff src _).2 (Or.inl ?_)
    unfold checkBalanced
    exact List.mem_append_right _
      (List.mem_map.2 ⟨e, List.mem_reverse.2 he, rfl⟩)
  · rw [countP_diagnostics]
    have hkw : (checkKeywords (splitlines src)).countP (fun d =>
        decide (d.line = e.line ∧ d.col = e.col ∧
          d.message = msgUnclosed e.ch (pairClose e.ch))) = 0 := by
      refine List.countP_eq_zero.2 fun d hd hp => ?_
      simp only [decide_eq_true_eq] at hp
      obtain ⟨kw, sugg, hm⟩ := mapLines_shape keywordsLine
        (fun n l d hd => (keywordsLine_shape n l d hd).2.2) _ _ _ hd
      exact ne_of_take_ne _ _ 1
        (by rw [take1_msgLegacy, take1_msgUnclosed]; decide) (hm ▸ hp.2.2)
    have htr : (checkTypeReferences (collectSymbols (splitlines src))
        (splitlines src)).countP (fun d =>
        decide (d.line = e.line ∧ d.col = e.col ∧
          d.message = msgUnclosed e.ch (pairClose e.ch))) = 0 := by
      refine List.countP_eq_zero.2 fun d hd hp => ?_
      simp only [decide_eq_true_eq] at hp
      rcases mapLines_shape _
          (fun n l d hd => (typeRefsLine_shape _ n l d hd).2.2) _ _ _ hd with
        ⟨r, hm⟩ | ⟨r, hm⟩
      · exact ne_of_take_ne _ _ 3
          (by rw [take3_msgUnresolvedType, take3_msgUnclosed]; decide) (hm ▸ hp.2.2)
      · exact ne_of_take_ne _ _ 3
          (by rw [take3_msgUnresolvedSpec, take3_msgUnclosed]; decide) (hm ▸ hp.2.2)
    have hmu : (checkMultiplicity (splitlines src)).countP (fun d =>
        decide (d.line = e.line ∧ d.col = e.col ∧
          d.message = msgUnclosed e.ch (pairClose e.ch))) = 0 := by
      refine List.countP_eq_zero.2 fun d hd hp => ?_
      simp only [decide_eq_true_eq] at hp
      obtain ⟨c2, hm⟩ := mapLines_shape multiplicityLine
        (fun n l d hd => (multiplicityLine_shape n l d hd).2.2) _ _ _ hd
      exact ne_of_take_ne _ _ 3
        (by rw [take3_msgMult, take3_msgUnclosed]; decide) (hm ▸ hp.2.2)
    have hcb : (checkConstraintBlocks (splitlines src)).countP (fun d =>
        decide (d.line = e.line ∧ d.col = e.col ∧
          d.message = msgUnclosed e.ch (pairClose e.ch))) = 0 := by
      refine List.countP_eq_zero.2 fun d hd hp => ?_
      simp only [decide_eq_true_eq] at hp
      obtain ⟨k, line, _, h2⟩ := mem_constraintPass_elim _ _ hd
      obtain ⟨kw, hm⟩ := (constraintLine_shape _ _ _ d h2).2.2
      exact ne_of_take_ne _ _ 1
        (by rw [take1_msgConstraint, take1_msgUnclosed]; decide) (hm ▸ hp.2.2)
    have hsc : (checkSemicolons (splitlines src)).countP (fun d =>
        decide (d.line = e.line ∧ d.col = e.col ∧
          d.message = msgUnclosed e.ch (pairClose e.ch))) = 0 := by
      refine List.countP_eq_zero.2 fun d hd hp => ?_
      simp only [decide_eq_true_eq] at hp
      have hm := (mapLines_shape semicolonsLine
        (fun n l d hd => (semicolonsLine_shape n l d hd).2.2) _ _ _ hd)
      exact ne_of_take_ne _ _ 1
        (by rw [take1_msgSemi, take1_msgUnclosed]; decide) (hm ▸ hp.2.2)
    have hbal : (checkBalanced (splitlines src)).countP (fun d =>
        decide (d.line = e.line ∧ d.col = e.col ∧
          d.message = msgUnclosed e.ch (pairClose e.ch))) = 1 := by
      unfold checkBalanced
      rw [List.countP_append]
      have hscan : ((processLines 1 (splitlines src) balInit).errors).countP (fun d =>
          decide (d.line = e.line ∧ d.col = e.col ∧
            d.message = msgUnclosed e.ch (pairClose e.ch))) = 0 := by
        refine List.countP_eq_zero.2 fun d hd hp => ?_
        simp only [decide_eq_true_eq] at hp
        rcases processLines_scanShape (splitlines src) 1 balInit d hd with h0 | hs
        · simp [balInit] at h0
        · rcases hs.2 with h3 | h3 <;>
            (rw [hp.2.2, take3_msgUnclosed] at h3
             exact absurd h3 (by decide))
      rw [hscan, List.countP_map, Nat.zero_add]
      refine countP_eq_one_of_unique _ _
        (List.pairwise_reverse.2 ((finalStack_pairwise (splitlines src)).imp ?_))
        e (List.mem_reverse.2 he) (by simp)
      intro a b hab hcon
      simp only [Function.comp_apply, decide_eq_true_eq] at hcon
      obtain ⟨⟨hb1, hb2, _⟩, ha1, ha2, _⟩ := hcon
      have e1 : b.line = a.line := by
        have x1 : b.line = e.line := hb1
        have x2 : a.line = e.line := ha1
        omega
      have e2 : b.col = a.col := by
        have x1 : b.col = e.col := hb2
        have x2 : a.col = e.col := ha2
        omega
      have hpos : entryPos b = entryPos a := by
        unfold entryPos
        rw [e1, e2]
      rw [hpos] at hab
      exact posLt_irrefl _ hab
    rw [hbal, hkw, htr, hmu, hcb, hsc]

/-- C6 witness: in `"part def A {"` the opener `{` at `(1, 12)` is never
closed and yields exactly one Unclosed diagnostic. -/
theorem claim_C6_witness :
    (⟨1, 12, msgUnclosed '{' (pairClose '{'), sevError⟩ : ValidationError) ∈
      (validateSysmlv2 (pys "part def A \x7b")).diagnostics ∧
    (validateSysmlv2 (pys "part def A \x7b")).diagnostics.countP (fun d =>
      decide (d.line = 1 ∧ d.col = 12 ∧
        d.message = msgUnclosed '{' (pairClose '{'))) = 1 := by
  exact claim_C6_unclosed_unique (pys "part def A \x7b") ⟨'{', 1, 12⟩ (by decide)

end SysMLV2
